import Mathlib

/-!
Shallow embedding of the core of `ExtendedGraphicsProgramming`
(`Source/ExtendedGraphicsProgramming/{Public,Private}/EGP_CustomRenderPasses.*`,
`EGP_GetMeshBatches.cpp`): the `EGP::FilterList` / `U_EGP_ViewFilter`
view-filtering predicates, the `T_EGP_PerViewData` per-view cache,
the `U_EGP_RenderPass` per-frame proxy hand-off, and the
`U_EGP_RenderPassSubsystem` lifecycle with fenced destruction.

Machine data is modelled with `Nat`/`Int`; the game thread / render thread
pair is modelled as a two-valued context; the render-command queue is an
explicit FIFO list; engine assertions (`check`) on fallible paths are
modelled with `Option`/`Except`.
-/

/-! ## `EGP::FilterList` (EGP_CustomRenderPasses.h, lines 24-91)

A whitelist OR blacklist of some objects.  `isWhitelist` is `TOptional<bool>`
(none = not configured), `elements` is a `TArray<T>`.  The comparator
(`CompareFn`) is passed explicitly to each operation that uses it. -/

structure FilterList (T : Type) where
  isWhitelist : Option Bool
  elements : List T
  deriving Repr, DecidableEq

/-- A fresh `FilterList` (default constructor: unconfigured, no elements). -/
def FilterList.mkEmpty (T : Type) : FilterList T := { isWhitelist := none, elements := [] }

/-- `FilterList::IsAllowed` (header lines 34-50): if the list has not been
configured, it allows everything; otherwise the candidate is allowed iff
its listed-ness equals whitelist-ness. -/
def FilterList.IsAllowed {T : Type} (cmp : T → T → Bool) (f : FilterList T) (t : T) : Bool :=
  match f.isWhitelist with
  | none => true
  | some w =>
    let isListed := f.elements.any (fun element => cmp element t)
    isListed == w

/-- `FilterList::AddBlacklisted` (header lines 55-60).  The engine assertion
`check(isWhitelist != true)` is modelled by returning `none` on failure. -/
def FilterList.AddBlacklisted {T : Type} (f : FilterList T) (t : T) : Option (FilterList T) :=
  if f.isWhitelist = some true then none
  else some { isWhitelist := some false, elements := f.elements ++ [t] }

/-- `FilterList::AddWhitelisted` (header lines 61-66), with
`check(isWhitelist != false)` modelled by `none`. -/
def FilterList.AddWhitelisted {T : Type} (f : FilterList T) (t : T) : Option (FilterList T) :=
  if f.isWhitelist = some false then none
  else some { isWhitelist := some true, elements := f.elements ++ [t] }

/-- `FilterList::Remove` (header lines 67-73): removes every element matching
the comparator; does not touch the mode. -/
def FilterList.RemoveMatching {T : Type} (cmp : T → T → Bool) (f : FilterList T) (t : T) :
    FilterList T :=
  { f with elements := f.elements.filter (fun t2 => !(cmp t t2)) }

/-- `FilterList::Configure` (header line 76): set the mode, elements untouched. -/
def FilterList.Configure {T : Type} (f : FilterList T) (w : Bool) : FilterList T :=
  { f with isWhitelist := some w }

/-- `FilterList::Clear` (header lines 78-82) with its default argument
(`NullOpt`), as invoked by `U_EGP_ViewFilter::ClearFilterList`. -/
def FilterList.ClearAll {T : Type} (_f : FilterList T) : FilterList T :=
  { isWhitelist := none, elements := [] }

/-- The `updateFilter` lambda inside `U_EGP_ViewFilter::UpdateFilterList`
(header lines 248-268): a conflicting add is rejected (logged, no-op);
otherwise the element is added under the requested polarity, or removed.
`none` would mean a failed engine assertion inside the add helpers
(provably unreachable: the rejection guard shields them). -/
def updateFilter {T : Type} (cmp : T → T → Bool) (element : T)
    (isAdding isAddingAsWhitelist : Bool) (f : FilterList T) : Option (FilterList T) :=
  if isAdding && f.isWhitelist.isSome && (f.isWhitelist != some isAddingAsWhitelist) then
    some f
  else
    if isAdding then
      if isAddingAsWhitelist then f.AddWhitelisted element
      else f.AddBlacklisted element
    else some (f.RemoveMatching cmp element)

/-! ### Ghost-instrumented FilterList for the polarity invariant

The C++ list stores untagged elements; "an element's polarity" means the
polarity it was added under.  To state that, we mirror each mutation on a
ghost state whose elements carry their add-time polarity tag, and relate it
to the real state by erasing the tags. -/

/-- One mutation of a filter list as performed through the
`U_EGP_ViewFilter` API: an add or a remove via `UpdateFilterList`, or a
`Clear` via `ClearFilterList`. -/
inductive FilterOp (T : Type) where
  | add (t : T) (asWhitelist : Bool)
  | remove (t : T)
  | clear
  deriving Repr

/-- Apply one `FilterOp` to a real `FilterList` (through `updateFilter` /
`ClearAll`, exactly as `U_EGP_ViewFilter` does). -/
def applyFilterOp {T : Type} (cmp : T → T → Bool) (f : FilterList T) :
    FilterOp T → Option (FilterList T)
  | .add t asW => updateFilter cmp t true asW f
  | .remove t => updateFilter cmp t false false f
  | .clear => some f.ClearAll

/-- Apply a whole sequence of `FilterOp`s (left to right). -/
def applyFilterOps {T : Type} (cmp : T → T → Bool) (f : FilterList T) :
    List (FilterOp T) → Option (FilterList T)
  | [] => some f
  | op :: ops =>
    match applyFilterOp cmp f op with
    | none => none
    | some f' => applyFilterOps cmp f' ops

/-- Ghost state: the same filter list, but each element remembers the
polarity (`true` = whitelisted) it was added under. -/
structure TaggedFilterList (T : Type) where
  isWhitelist : Option Bool
  elements : List (T × Bool)
  deriving Repr

/-- Erase the ghost tags, recovering the real `FilterList`. -/
def TaggedFilterList.erase {T : Type} (g : TaggedFilterList T) : FilterList T :=
  { isWhitelist := g.isWhitelist, elements := g.elements.map Prod.fst }

def TaggedFilterList.mkEmpty (T : Type) : TaggedFilterList T :=
  { isWhitelist := none, elements := [] }

/-- The ghost mirror of `applyFilterOp`: identical control flow, but adds
record the polarity tag alongside the element. -/
def applyTaggedOp {T : Type} (cmp : T → T → Bool) (g : TaggedFilterList T) :
    FilterOp T → Option (TaggedFilterList T)
  | .add t asW =>
    if true && g.isWhitelist.isSome && (g.isWhitelist != some asW) then
      some g
    else
      if asW then
        if g.isWhitelist = some false then none
        else some { isWhitelist := some true, elements := g.elements ++ [(t, true)] }
      else
        if g.isWhitelist = some true then none
        else some { isWhitelist := some false, elements := g.elements ++ [(t, false)] }
  | .remove t =>
    some { g with elements := g.elements.filter (fun p => !(cmp t p.1)) }
  | .clear => some (TaggedFilterList.mkEmpty T)

def applyTaggedOps {T : Type} (cmp : T → T → Bool) (g : TaggedFilterList T) :
    List (FilterOp T) → Option (TaggedFilterList T)
  | [] => some g
  | op :: ops =>
    match applyTaggedOp cmp g op with
    | none => none
    | some g' => applyTaggedOps cmp g' ops

/-! ## `U_EGP_ViewFilter` (header lines 99-337, EGP_CustomRenderPasses.cpp lines 8-56)

Five filter lists, each kept in a game-thread copy and a render-thread copy.
Engine object identities (render target, scene, viewport, view actor) are
modelled as `Nat`; the player index is an `Int`; all five comparators are
`std::equal_to`, i.e. plain equality. -/

/-- Which thread a `ShouldRenderFor` query runs on.  The source computes
`IsInRenderingThread()` / `IsInGameThread()` and asserts that one of them
holds; we model the caller's context as exactly one of the two. -/
inductive ThreadCtx where
  | game
  | render
  deriving Repr, DecidableEq

structure ViewFilter where
  ExcludeAll : Bool
  byRenderTarget_GT : FilterList Nat
  byRenderTarget_RT : FilterList Nat
  byScene_GT : FilterList Nat
  byScene_RT : FilterList Nat
  byViewport_GT : FilterList Nat
  byViewport_RT : FilterList Nat
  byViewActor_GT : FilterList Nat
  byViewActor_RT : FilterList Nat
  byPlayerIndex_GT : FilterList Int
  byPlayerIndex_RT : FilterList Int
  deriving Repr

/-- Equality comparator (`std::equal_to`), for `Nat`-identified engine objects. -/
def natEq (a b : Nat) : Bool := a == b
/-- Equality comparator (`std::equal_to`), for player indices. -/
def intEq (a b : Int) : Bool := a == b

/-- `FSceneViewFamily`, reduced to the two fields the filter reads. -/
structure SceneViewFamily where
  Scene : Nat
  RenderTarget : Nat
  deriving Repr

/-- `FSceneView`, reduced to the fields the filter reads. -/
structure SceneView where
  Family : SceneViewFamily
  PlayerIndex : Int
  ViewActor : Nat
  deriving Repr

/-- `U_EGP_ViewFilter::ShouldRenderFor(const FSceneViewFamily&)`
(EGP_CustomRenderPasses.cpp lines 33-44). -/
def ShouldRenderForFamily (th : ThreadCtx) (vf : ViewFilter) (viewFamily : SceneViewFamily) :
    Bool :=
  let rThread := th == ThreadCtx.render
  let gThread := th == ThreadCtx.game
  !vf.ExcludeAll &&
    ((rThread && vf.byScene_RT.IsAllowed natEq viewFamily.Scene) ||
     (gThread && vf.byScene_GT.IsAllowed natEq viewFamily.Scene)) &&
    ((rThread && vf.byRenderTarget_RT.IsAllowed natEq viewFamily.RenderTarget) ||
     (gThread && vf.byRenderTarget_GT.IsAllowed natEq viewFamily.RenderTarget))

/-- `U_EGP_ViewFilter::ShouldRenderFor(const FSceneView&)`
(EGP_CustomRenderPasses.cpp lines 45-56). -/
def ShouldRenderForView (th : ThreadCtx) (vf : ViewFilter) (view : SceneView) : Bool :=
  let rThread := th == ThreadCtx.render
  let gThread := th == ThreadCtx.game
  ShouldRenderForFamily th vf view.Family &&
    ((rThread && vf.byPlayerIndex_RT.IsAllowed intEq view.PlayerIndex) ||
     (gThread && vf.byPlayerIndex_GT.IsAllowed intEq view.PlayerIndex)) &&
    ((rThread && vf.byViewActor_RT.IsAllowed natEq view.ViewActor) ||
     (gThread && vf.byViewActor_GT.IsAllowed natEq view.ViewActor))

/-- `U_EGP_ViewFilter::ShouldRenderFor(const FViewport*)`
(EGP_CustomRenderPasses.cpp lines 8-17). -/
def ShouldRenderForViewport (th : ThreadCtx) (vf : ViewFilter) (viewport : Nat) : Bool :=
  let rThread := th == ThreadCtx.render
  let gThread := th == ThreadCtx.game
  !vf.ExcludeAll &&
    ((rThread && vf.byViewport_RT.IsAllowed natEq viewport) ||
     (gThread && vf.byViewport_GT.IsAllowed natEq viewport))

/-- `U_EGP_ViewFilter::ShouldRenderFor(const FSceneInterface*)`
(EGP_CustomRenderPasses.cpp lines 18-27). -/
def ShouldRenderForScene (th : ThreadCtx) (vf : ViewFilter) (scene : Nat) : Bool :=
  let rThread := th == ThreadCtx.render
  let gThread := th == ThreadCtx.game
  !vf.ExcludeAll &&
    ((rThread && vf.byScene_RT.IsAllowed natEq scene) ||
     (gThread && vf.byScene_GT.IsAllowed natEq scene))

/-- `U_EGP_ViewFilter::ShouldRenderFor(const FSceneViewExtensionContext&)`
(EGP_CustomRenderPasses.cpp lines 28-32). -/
def ShouldRenderForSVEContext (th : ThreadCtx) (vf : ViewFilter) (scene viewport : Nat) : Bool :=
  ShouldRenderForScene th vf scene && ShouldRenderForViewport th vf viewport

/-! ## `T_EGP_PerViewData<TData>` (header lines 671-781)

The per-view persistent-state cache.  `FIntRect` / `FInt32Point` are pairs of
integers; `TMap<int, ViewData>` is an association list with unique keys
(first-match lookup); the user data type `TData` and its `Resample` are
parameters of the embedding. -/

/-- `FInt32Point`. -/
structure IntPoint where
  x : Int
  y : Int
  deriving Repr, DecidableEq

def IntPoint.sub (a b : IntPoint) : IntPoint := ⟨a.x - b.x, a.y - b.y⟩

/-- `FIntRect` (Min / Max corners). -/
structure IntRect where
  Min : IntPoint
  Max : IntPoint
  deriving Repr, DecidableEq

/-- `FIntRect::Size() = Max - Min`. -/
def IntRect.size (r : IntRect) : IntPoint := r.Max.sub r.Min

/-- `FViewInfo`, reduced to the fields the embedded functions read.
`viewKey` models `view.State->GetViewKey()`; the three per-primitive lists
model `PrimitiveVisibilityMap`, `PrimitiveViewRelevanceMap` (reduced to its
`bDynamicRelevance` bit) and `DynamicMeshElementRanges` (pairs `(X, Y)`);
the engine keeps those three at one entry per scene primitive. -/
structure ViewInfo where
  viewKey : Int
  ViewRect : IntRect
  FeatureLevel : Nat
  PrimitiveVisibilityMap : List Bool
  PrimitiveViewRelevanceMap : List Bool
  DynamicMeshElementRanges : List (Int × Int)
  deriving Repr

/-- `T_EGP_PerViewData<TData>::ViewData` (header lines 770-776). -/
structure ViewData (TData : Type) where
  User : TData
  PixelSubset : IntRect
  FeatureLevel : Nat
  FramesSinceAccess : Int
  deriving Repr, DecidableEq

/-- The whole `T_EGP_PerViewData<TData>` object (threshold, protection set,
`dataByViewID`). -/
structure PerViewState (TData : Type) where
  CleanupFrameThreshold : Int
  CleanupPreventionByViewID : List Int
  dataByViewID : List (Int × ViewData TData)
  deriving Repr

/-- First-match association-list lookup (`TMap::Find`). -/
def findEntry {κ α : Type} [DecidableEq κ] (k : κ) : List (κ × α) → Option α
  | [] => none
  | (k', v) :: rest => if k' = k then some v else findEntry k rest

/-- Replace the first entry with key `k` (in place), or append a new entry:
the state update performed by `DataForView` through its reference into the
map (`TMap::Emplace` for the create path). -/
def upsertEntry {κ α : Type} [DecidableEq κ] (k : κ) (v : α) : List (κ × α) → List (κ × α)
  | [] => [(k, v)]
  | (k', v') :: rest =>
    if k' = k then (k, v) :: rest else (k', v') :: upsertEntry k v rest

/-- Keys of an association list. -/
def entryKeys {κ α : Type} (l : List (κ × α)) : List κ := l.map Prod.fst

/-- The per-entry action of `T_EGP_PerViewData::Tick` (header lines 691-702):
protected IDs are skipped entirely; an entry with
`FramesSinceAccess > CleanupFrameThreshold` is removed; otherwise its
counter advances by one. -/
def tickEntry {TData : Type} (threshold : Int) (protectedIDs : List Int)
    (viewID : Int) (d : ViewData TData) : Option (ViewData TData) :=
  if viewID ∈ protectedIDs then some d
  else if threshold < d.FramesSinceAccess then none
  else some { d with FramesSinceAccess := d.FramesSinceAccess + 1 }

/-- `Tick` applied across the map (the source iterates a snapshot of the key
set and mutates/removes each entry independently). -/
def tickMap {TData : Type} (threshold : Int) (protectedIDs : List Int) :
    List (Int × ViewData TData) → List (Int × ViewData TData)
  | [] => []
  | (k, d) :: rest =>
    match tickEntry threshold protectedIDs k d with
    | none => tickMap threshold protectedIDs rest
    | some d' => (k, d') :: tickMap threshold protectedIDs rest

/-- `T_EGP_PerViewData::Tick` (header lines 685-703). -/
def PerViewState.Tick {TData : Type} (s : PerViewState TData) : PerViewState TData :=
  { s with dataByViewID := tickMap s.CleanupFrameThreshold s.CleanupPreventionByViewID s.dataByViewID }

/-- `T_EGP_PerViewData::DataForView` (header lines 710-743), parametrised by
the user data's constructor (`TData{graph, view, view.ViewRect, args...}`,
abstracted to the constructed value) and its `Resample` member
(`resample user oldResolution newResolution oldToNewPixelOffset`).
Returns the updated cache state and the returned `TData&` value.

Control flow of the source: find-or-emplace (a fresh entry starts with the
view's rectangle and `FramesSinceAccess = 0`), then reset the timestamp,
then resample and update `PixelSubset` iff the cached rectangle differs
from `view.ViewRect`. -/
def PerViewState.DataForView {TData : Type}
    (resample : TData → IntPoint → IntPoint → IntPoint → TData)
    (construct : TData)
    (s : PerViewState TData) (view : ViewInfo) : PerViewState TData × TData :=
  let viewID := view.viewKey
  let data : ViewData TData :=
    match findEntry viewID s.dataByViewID with
    | none =>
      { User := construct
        PixelSubset := view.ViewRect
        FeatureLevel := view.FeatureLevel
        FramesSinceAccess := 0 }
    | some d => d
  let data := { data with FramesSinceAccess := 0 }
  let data :=
    if data.PixelSubset ≠ view.ViewRect then
      { data with
          User := resample data.User (data.PixelSubset.size) (view.ViewRect.size)
                    (view.ViewRect.Min.sub data.PixelSubset.Min)
          PixelSubset := view.ViewRect }
    else data
  ({ s with dataByViewID := upsertEntry viewID data s.dataByViewID }, data.User)

/-- `T_EGP_PerViewData::DoesDataExistForView` (header lines 746-749). -/
def PerViewState.DoesDataExistForView {TData : Type} (s : PerViewState TData)
    (view : ViewInfo) : Bool :=
  (findEntry view.viewKey s.dataByViewID).isSome

/-! ## `U_EGP_RenderPass` per-frame tick (EGP_CustomRenderPasses.cpp lines 150-208)

Components are identified by `Nat` handles.  The simulation-thread world of
components is an environment mapping each handle to its `IsValid` state, its
`EnabledInCustomPass` flag, and the proxy bytes currently published to the
render thread (`renderThreadProxy`, read by `GetProxy_RenderThread()` when
the enqueued command runs). -/

/-- The render-thread-visible state of one `U_EGP_RenderPassComponent`. -/
structure Component where
  valid : Bool
  EnabledInCustomPass : Bool
  publishedProxy : List Nat
  deriving Repr

/-- `U_EGP_RenderPass`, reduced to the two collections the tick touches:
the game-thread component set (a `TSet`, so its handle list is duplicate-free
in any reachable state) and the render-thread proxy table. -/
structure RenderPass where
  Components_GameThread : List Nat
  ComponentProxies_RenderThread : List (Nat × List Nat)
  deriving Repr, DecidableEq

/-- `U_EGP_RenderPass::RegisterPassComponent` (cpp lines 199-203):
`TSet::Add`, a no-op when already present. -/
def RenderPass.RegisterPassComponent (p : RenderPass) (c : Nat) : RenderPass :=
  if c ∈ p.Components_GameThread then p
  else { p with Components_GameThread := p.Components_GameThread ++ [c] }

/-- `U_EGP_RenderPass::UnregisterPassComponent` (cpp lines 204-208):
`TSet::Remove`. -/
def RenderPass.UnregisterPassComponent (p : RenderPass) (c : Nat) : RenderPass :=
  { p with Components_GameThread := p.Components_GameThread.filter (fun x => x ≠ c) }

/-- The payload of the single `ENQUEUE_RENDER_COMMAND(UpdateCustomRenderPassProxies)`
issued by `Tick_GameThread`: the captured snapshot of currently-valid
registered components. -/
structure TickCommand where
  snapshot : List Nat
  deriving Repr, DecidableEq

/-- The game-thread half of `U_EGP_RenderPass::Tick_GameThread` (cpp lines
150-193): snapshot the valid registered components and enqueue one command
carrying that snapshot.  Returns the commands enqueued by this call. -/
def RenderPass.Tick_GameThread (env : Nat → Component) (p : RenderPass) : List TickCommand :=
  let components := p.Components_GameThread.filter (fun c => (env c).valid)
  [{ snapshot := components }]

/-- The render-thread half of the same tick (the body of the enqueued
command, cpp lines 172-193): reset `ComponentProxies_RenderThread`, re-add
one entry per snapshotted component carrying its currently published proxy
bytes, then call `Tick_RenderThread`.  Returns the updated pass and the
proxy table as observed by the `Tick_RenderThread` hook (which runs strictly
after the rebuild, in the same command). -/
def RenderPass.runTickCommand (envAtRun : Nat → Component) (p : RenderPass)
    (cmd : TickCommand) : RenderPass × List (Nat × List Nat) :=
  let rebuilt := cmd.snapshot.map (fun c => (c, (envAtRun c).publishedProxy))
  let p' := { p with ComponentProxies_RenderThread := rebuilt }
  (p', p'.ComponentProxies_RenderThread)

/-! ## `U_EGP_RenderPassSubsystem` (header lines 462-504, cpp lines 211-317)

Pass classes (`TSubclassOf<U_EGP_RenderPass>`) and pass instances are both
identified by `Nat`.  `passes` maps class to instance; `dyingPassFences`
maps a (strongly held) dying pass instance to its `FRenderCommandFence`,
modelled as a started/complete flag pair whose completion is flipped by the
environment once the render thread drains past the fence.  The render
command queue is an explicit FIFO. -/

/-- An `FRenderCommandFence`: `BeginFence` sets `started`; the render thread
eventually sets `complete` (polled by `IsFenceComplete`). -/
structure Fence where
  started : Bool
  complete : Bool
  deriving Repr, DecidableEq

/-- The thread-crossing commands the subsystem enqueues.
`cleanupPass pass b` is `ENQUEUE_RENDER_COMMAND(CleanupPass)` invoking
`pass->CleanupThisPass_RenderThread(world, b)`; `initPass` is
`ENQUEUE_RENDER_COMMAND(InitPass)`. -/
inductive RenderCmd where
  | initPass (pass : Nat)
  | cleanupPass (pass : Nat) (isExternalCall : Bool)
  deriving Repr, DecidableEq

structure Subsystem where
  passes : List (Nat × Nat)
  dyingPassFences : List (Nat × Fence)
  isCurrentlyDying : Bool
  renderQueue : List RenderCmd
  nextPassId : Nat
  deriving Repr, DecidableEq

/-- `U_EGP_RenderPassSubsystem::GetPass` (cpp lines 253-277): return the
existing pass; otherwise, if requested, create one (game-thread init) and
enqueue its render-thread init.  Returns the pass (or `none`) and the
updated subsystem. -/
def Subsystem.GetPass (s : Subsystem) (ty : Nat) (createIfNeeded : Bool) :
    Option Nat × Subsystem :=
  match findEntry ty s.passes with
  | some pass => (some pass, s)
  | none =>
    if !createIfNeeded then (none, s)
    else
      let newPass := s.nextPassId
      (some newPass,
       { s with
           passes := s.passes ++ [(ty, newPass)]
           renderQueue := s.renderQueue ++ [RenderCmd.initPass newPass]
           nextPassId := s.nextPassId + 1 })

/-- The fenced-cleanup tail of `DestroyPass_Impl_GameThread` (cpp lines
301-314): add a fence keyed by the strongly-held pass, enqueue the
render-thread cleanup command, then `BeginFence` (so the fence ends up
started and not yet complete). -/
def Subsystem.fencedCleanup (s : Subsystem) (pass : Nat) (isExternalCall : Bool) : Subsystem :=
  { s with
      dyingPassFences := s.dyingPassFences ++ [(pass, { started := true, complete := false })]
      renderQueue := s.renderQueue ++ [RenderCmd.cleanupPass pass isExternalCall] }

/-- `U_EGP_RenderPassSubsystem::DestroyPass_Impl_GameThread` (cpp lines
278-317).  Mirrors the source's branch structure exactly:
a missing pass returns `false`; while the subsystem is dying an
internal call returns `true` immediately (before the fence/cleanup block);
a dying-external call leaves `passes` alone and runs the fenced cleanup;
a normal-operation call asserts `isExternalCall` (`none` = assertion
failure), removes the pass from `passes`, and runs the fenced cleanup. -/
def Subsystem.DestroyPass_Impl_GameThread (s : Subsystem) (ty : Nat) (isExternalCall : Bool) :
    Option (Subsystem × Bool) :=
  match findEntry ty s.passes with
  | none => some (s, false)
  | some pass =>
    if s.isCurrentlyDying then
      if !isExternalCall then some (s, true)
      else some (s.fencedCleanup pass isExternalCall, true)
    else
      if isExternalCall then
        let s := { s with passes := s.passes.filter (fun kv => kv.1 ≠ ty) }
        some (s.fencedCleanup pass isExternalCall, true)
      else none

/-- `U_EGP_RenderPassSubsystem::DestroyPass_GameThread` (header line 478):
the external entry point, `DestroyPass_Impl_GameThread(type, true)`. -/
def Subsystem.DestroyPass_GameThread (s : Subsystem) (ty : Nat) : Option (Subsystem × Bool) :=
  s.DestroyPass_Impl_GameThread ty true

/-- `U_EGP_RenderPassSubsystem::BeginDestroy` (cpp lines 227-238): set
`isCurrentlyDying`, call `DestroyPass_Impl_GameThread(class, false)` for
every pass in the map, then empty `passes`.  (During the loop the impl
never reaches its assertion, so the `Option` fallback to the accumulator is
dead code.) -/
def Subsystem.BeginDestroy (s : Subsystem) : Subsystem :=
  let s1 := { s with isCurrentlyDying := true }
  let s2 := s.passes.foldl
    (fun acc kv =>
      match acc.DestroyPass_Impl_GameThread kv.1 false with
      | some (s', _) => s'
      | none => acc)
    s1
  { s2 with passes := [] }

/-- `U_EGP_RenderPassSubsystem::IsReadyForFinishDestroy` (cpp lines 239-245):
`Algo::AllOf` of `IsFenceComplete` over `dyingPassFences`. -/
def Subsystem.IsReadyForFinishDestroy (s : Subsystem) : Bool :=
  s.dyingPassFences.all (fun kvp => kvp.2.complete)

/-- Environment action: the render thread drains past a fence, so
`IsFenceComplete` starts reporting true for every started fence.  (Used to
state the "becomes ready once all fences complete" half of the lifecycle
claims.) -/
def Subsystem.withAllFencesComplete (s : Subsystem) : Subsystem :=
  { s with
      dyingPassFences :=
        s.dyingPassFences.map (fun kvp => (kvp.1, { kvp.2 with complete := true })) }

/-! ## `EGP::GetDynamicMeshElementRange` (EGP_GetMeshBatches.cpp lines 14-31)

`FInt32Range::Empty()` is modelled as a dedicated constructor.  The function
is total in the source — its out-of-range guard returns the empty range —
but we give it an `Except Unit` codomain so that "fails a fatal assertion"
(the convention for a `check`/`checkf` failure in this embedding) is
statable about it. -/

inductive FInt32Range where
  | emptyRange
  | interval (lo hi : Int)
  deriving Repr, DecidableEq

/-- `EGP::GetDynamicMeshElementRange`: garbage primitive indices are headed
off by an explicit bounds check returning `FInt32Range::Empty()`; visible
primitives with dynamic relevance return their recorded element range;
everything else returns the empty range.  `.error` would model a fatal
engine assertion; no path produces it. -/
def GetDynamicMeshElementRange (info : ViewInfo) (primitiveIndex : Nat) :
    Except Unit FInt32Range :=
  if primitiveIndex ≥ info.PrimitiveViewRelevanceMap.length then
    .ok .emptyRange
  else
    if info.PrimitiveVisibilityMap.getD primitiveIndex false then
      if info.PrimitiveViewRelevanceMap.getD primitiveIndex false then
        let range := info.DynamicMeshElementRanges.getD primitiveIndex (0, 0)
        .ok (.interval range.1 range.2)
      else .ok .emptyRange
    else .ok .emptyRange

/-! ## Helper lemmas about association lists -/

theorem findEntry_eq_none_of_not_mem {κ α : Type} [DecidableEq κ] {k : κ}
    {l : List (κ × α)} (h : k ∉ entryKeys l) : findEntry k l = none := by
  induction l with
  | nil => rfl
  | cons kv rest ih =>
    simp only [entryKeys, List.map_cons, List.mem_cons, not_or] at h
    simp only [findEntry]
    rw [if_neg (fun hh => h.1 hh.symm), ih (by simpa [entryKeys] using h.2)]

theorem findEntry_map_self {α : Type} (g : Nat → α) (c : Nat) (l : List Nat) :
    findEntry c (l.map (fun x => (x, g x))) =
      if c ∈ l then some (g c) else none := by
  induction l with
  | nil => rfl
  | cons x rest ih =>
    simp only [List.map_cons, findEntry, List.mem_cons]
    by_cases hx : x = c
    · subst hx; simp
    · rw [if_neg hx, ih]
      by_cases hc : c ∈ rest
      · simp [hc]
      · simp [hc, Ne.symm hx]

theorem findEntry_upsert_self {κ α : Type} [DecidableEq κ] (k : κ) (v : α)
    (l : List (κ × α)) : findEntry k (upsertEntry k v l) = some v := by
  induction l with
  | nil => simp [upsertEntry, findEntry]
  | cons kv rest ih =>
    by_cases hk : kv.1 = k
    · simp [upsertEntry, hk, findEntry]
    · simp only [upsertEntry]
      rw [if_neg hk]
      simp only [findEntry]
      rw [if_neg hk, ih]

theorem entryKeys_upsert {κ α : Type} [DecidableEq κ] (k : κ) (v : α) (l : List (κ × α)) :
    entryKeys (upsertEntry k v l) =
      if k ∈ entryKeys l then entryKeys l else entryKeys l ++ [k] := by
  induction l with
  | nil => simp [upsertEntry, entryKeys]
  | cons kv rest ih =>
    by_cases hk : kv.1 = k
    · simp [upsertEntry, hk, entryKeys]
    · simp only [upsertEntry]
      rw [if_neg hk]
      simp only [entryKeys, List.map_cons, List.mem_cons] at ih ⊢
      rw [ih]
      by_cases hc : k ∈ List.map Prod.fst rest
      · simp [hc, Ne.symm hk]
      · simp [hc, Ne.symm hk]

/-! ## Claim C6: the composite full-view test -/

/-- The copy of the scene filter consulted by a caller on thread `th`. -/
def sceneListFor : ThreadCtx → ViewFilter → FilterList Nat
  | .game, vf => vf.byScene_GT
  | .render, vf => vf.byScene_RT

/-- The copy of the render-target filter consulted by a caller on thread `th`. -/
def renderTargetListFor : ThreadCtx → ViewFilter → FilterList Nat
  | .game, vf => vf.byRenderTarget_GT
  | .render, vf => vf.byRenderTarget_RT

/-- The copy of the player-index filter consulted by a caller on thread `th`. -/
def playerIndexListFor : ThreadCtx → ViewFilter → FilterList Int
  | .game, vf => vf.byPlayerIndex_GT
  | .render, vf => vf.byPlayerIndex_RT

/-- The copy of the view-actor filter consulted by a caller on thread `th`. -/
def viewActorListFor : ThreadCtx → ViewFilter → FilterList Nat
  | .game, vf => vf.byViewActor_GT
  | .render, vf => vf.byViewActor_RT

/-- Claim C6: for every full view, `ShouldRenderFor(view)` returns true iff
the scene filter, render-target filter, player-index filter and view-actor
filter (each in the calling thread's copy) all accept the view's attributes
and `ExcludeAll` is false; consequently making any single sub-filter reject,
or setting `ExcludeAll`, makes the composite reject. -/
theorem shouldRenderForView_iff (th : ThreadCtx) (vf : ViewFilter) (view : SceneView) :
    ShouldRenderForView th vf view = true ↔
      ((sceneListFor th vf).IsAllowed natEq view.Family.Scene = true ∧
       (renderTargetListFor th vf).IsAllowed natEq view.Family.RenderTarget = true ∧
       (playerIndexListFor th vf).IsAllowed intEq view.PlayerIndex = true ∧
       (viewActorListFor th vf).IsAllowed natEq view.ViewActor = true ∧
       vf.ExcludeAll = false) := by
  cases th <;>
    simp [ShouldRenderForView, ShouldRenderForFamily, sceneListFor, renderTargetListFor,
          playerIndexListFor, viewActorListFor] <;>
    tauto

/-- Closed witness for C6: a fresh filter (everything unset) accepts a
concrete view on the game thread. -/
theorem shouldRenderForView_iff_witness :
    ShouldRenderForView ThreadCtx.game
      { ExcludeAll := false
        byRenderTarget_GT := FilterList.mkEmpty Nat, byRenderTarget_RT := FilterList.mkEmpty Nat
        byScene_GT := FilterList.mkEmpty Nat, byScene_RT := FilterList.mkEmpty Nat
        byViewport_GT := FilterList.mkEmpty Nat, byViewport_RT := FilterList.mkEmpty Nat
        byViewActor_GT := FilterList.mkEmpty Nat, byViewActor_RT := FilterList.mkEmpty Nat
        byPlayerIndex_GT := FilterList.mkEmpty Int, byPlayerIndex_RT := FilterList.mkEmpty Int }
      { Family := { Scene := 1, RenderTarget := 2 }, PlayerIndex := 0, ViewActor := 3 } = true :=
  (shouldRenderForView_iff _ _ _).mpr (by decide)

/-! ## Claim C7: `IsAllowed` semantics -/

/-- Claim C7: if the mode is unset, `IsAllowed` returns true; otherwise it
returns true exactly when membership of the candidate (under the comparator)
coincides with the list being a whitelist. -/
theorem filterList_isAllowed_spec {T : Type} (cmp : T → T → Bool) (f : FilterList T) (t : T) :
    (f.isWhitelist = none → f.IsAllowed cmp t = true) ∧
    (∀ w : Bool, f.isWhitelist = some w →
      (f.IsAllowed cmp t = true ↔ ((∃ e ∈ f.elements, cmp e t = true) ↔ w = true))) := by
  refine ⟨fun h => by simp [FilterList.IsAllowed, h], fun w h => ?_⟩
  simp only [FilterList.IsAllowed, h]
  cases w <;> simp [List.any_eq_true]

/-- Closed witness for C7: a whitelist `{1, 2}` allows `1`, and an unset
list allows anything. -/
theorem filterList_isAllowed_spec_witness :
    FilterList.IsAllowed natEq { isWhitelist := some true, elements := [1, 2] } 1 = true ∧
    FilterList.IsAllowed natEq { isWhitelist := none, elements := [] } 9 = true :=
  ⟨((filterList_isAllowed_spec natEq { isWhitelist := some true, elements := [1, 2] } 1).2
      true rfl).mpr (by decide),
   (filterList_isAllowed_spec natEq { isWhitelist := none, elements := [] } 9).1 rfl⟩

/-! ## Claim C9: malformed primitive indices in `GetDynamicMeshElementRange` -/

/-- A concrete view with no primitives at all, so every index is out of
range. -/
def emptyPrimitivesView : ViewInfo :=
  { viewKey := 0
    ViewRect := { Min := ⟨0, 0⟩, Max := ⟨0, 0⟩ }
    FeatureLevel := 0
    PrimitiveVisibilityMap := []
    PrimitiveViewRelevanceMap := []
    DynamicMeshElementRanges := [] }

/-- Counterexample to C9 as stated: for the out-of-range index 5 on a view
with no primitives, `GetDynamicMeshElementRange` returns the recoverable
empty range, and does not fail an assertion. -/
theorem getDynamicMeshElementRange_no_assert :
    GetDynamicMeshElementRange emptyPrimitivesView 5 = .ok .emptyRange ∧
    GetDynamicMeshElementRange emptyPrimitivesView 5 ≠ .error () := by
  refine ⟨rfl, fun h => ?_⟩
  rw [show GetDynamicMeshElementRange emptyPrimitivesView 5 = .ok .emptyRange from rfl] at h
  exact Except.noConfusion h

/-- Amended C9: every out-of-range primitive index makes
`GetDynamicMeshElementRange` return the empty range — a recoverable result,
never a fatal assertion. -/
theorem getDynamicMeshElementRange_oob_empty (info : ViewInfo) (primitiveIndex : Nat)
    (h : primitiveIndex ≥ info.PrimitiveViewRelevanceMap.length) :
    GetDynamicMeshElementRange info primitiveIndex = .ok .emptyRange := by
  simp [GetDynamicMeshElementRange, h]

/-- Closed witness for the amended C9 at index 5 on the empty view. -/
theorem getDynamicMeshElementRange_oob_empty_witness :
    GetDynamicMeshElementRange emptyPrimitivesView 5 = .ok .emptyRange :=
  getDynamicMeshElementRange_oob_empty emptyPrimitivesView 5 (by decide)

/-! ## Claim C5: the per-frame tick rebuilds the proxy table atomically -/

/-- Claim C5: `Tick_GameThread` issues a single thread-crossing command; when
that command runs it rebuilds the proxy table to hold exactly one entry per
valid component registered at snapshot time (keyed by the component, valued
with its latest published proxy bytes), a component unregistered before the
tick is absent from the table, and the per-frame submission hook observes
exactly the fully rebuilt table. -/
theorem tick_gameThread_rebuild (env envRun : Nat → Component) (p : RenderPass)
    (hnodup : p.Components_GameThread.Nodup) :
    (p.Tick_GameThread env).length = 1 ∧
    ∀ cmd, p.Tick_GameThread env = [cmd] →
      (p.runTickCommand envRun cmd).2 =
        (p.runTickCommand envRun cmd).1.ComponentProxies_RenderThread ∧
      (entryKeys (p.runTickCommand envRun cmd).1.ComponentProxies_RenderThread).Nodup ∧
      (∀ c, findEntry c (p.runTickCommand envRun cmd).1.ComponentProxies_RenderThread =
          if c ∈ p.Components_GameThread ∧ (env c).valid = true
          then some (envRun c).publishedProxy else none) ∧
      (∀ c cmd', (p.UnregisterPassComponent c).Tick_GameThread env = [cmd'] →
          findEntry c
            ((p.UnregisterPassComponent c).runTickCommand envRun cmd').1.ComponentProxies_RenderThread
            = none) := by
  refine ⟨rfl, ?_⟩
  intro cmd hcmd
  have hsnap : cmd = { snapshot := p.Components_GameThread.filter (fun c => (env c).valid) } := by
    have := hcmd
    simp only [RenderPass.Tick_GameThread, List.cons.injEq, and_true] at this
    exact this.symm
  subst hsnap
  refine ⟨rfl, ?_, ?_, ?_⟩
  · simp only [RenderPass.runTickCommand, entryKeys, List.map_map]
    have : (Prod.fst ∘ fun c => (c, (envRun c).publishedProxy)) = id := rfl
    rw [this, List.map_id]
    exact hnodup.filter _
  · intro c
    rw [RenderPass.runTickCommand, findEntry_map_self]
    simp [List.mem_filter]
  · intro c cmd' hcmd'
    simp only [RenderPass.Tick_GameThread, List.cons.injEq, and_true] at hcmd'
    rw [RenderPass.runTickCommand, ← hcmd', findEntry_map_self]
    simp [RenderPass.UnregisterPassComponent, List.mem_filter]

/-- A two-component world for the C5 witness: both components valid, each
publishing its own handle as its proxy bytes. -/
def envC5 : Nat → Component :=
  fun c => { valid := true, EnabledInCustomPass := true, publishedProxy := [c] }

def passC5 : RenderPass :=
  { Components_GameThread := [1, 2], ComponentProxies_RenderThread := [] }

/-- Closed witness for C5: after the tick command runs, component 1's entry
holds its published proxy bytes. -/
theorem tick_gameThread_rebuild_witness :
    findEntry 1
      ((RenderPass.runTickCommand envC5 passC5 { snapshot := [1, 2] }).1.ComponentProxies_RenderThread)
      = some [1] := by
  have h := (tick_gameThread_rebuild envC5 envC5 passC5 (by decide)).2
      { snapshot := [1, 2] } (by decide)
  rw [h.2.2.1 1]
  decide

/-! ## Claim C10: `EnabledInCustomPass` never influences the rebuilt table -/

/-- Claim C10: two per-frame ticks whose component environments agree on
validity and published proxies — but may disagree arbitrarily on
`EnabledInCustomPass` — produce identical snapshots and identical rebuilt
proxy tables: nothing in the core reads `EnabledInCustomPass`. -/
theorem tick_ignores_enabled_flag (p : RenderPass) (env1 env2 envRun1 envRun2 : Nat → Component)
    (hvalid : ∀ c, (env1 c).valid = (env2 c).valid)
    (hproxy : ∀ c, (envRun1 c).publishedProxy = (envRun2 c).publishedProxy) :
    p.Tick_GameThread env1 = p.Tick_GameThread env2 ∧
    (∀ cmd, p.runTickCommand envRun1 cmd = p.runTickCommand envRun2 cmd) := by
  constructor
  · simp only [RenderPass.Tick_GameThread, List.cons.injEq, and_true, TickCommand.mk.injEq]
    exact List.filter_congr (fun c _ => by rw [hvalid c])
  · intro cmd
    simp only [RenderPass.runTickCommand]
    rw [List.map_congr_left (fun c _ => by rw [hproxy c])]

/-- Closed witness for C10: the same component world with the enabled flag
flipped produces the same tick command list. -/
theorem tick_ignores_enabled_flag_witness :
    RenderPass.Tick_GameThread
        (fun c => { valid := true, EnabledInCustomPass := true, publishedProxy := [c] })
        { Components_GameThread := [1], ComponentProxies_RenderThread := [] } =
      RenderPass.Tick_GameThread
        (fun c => { valid := true, EnabledInCustomPass := false, publishedProxy := [c] })
        { Components_GameThread := [1], ComponentProxies_RenderThread := [] } :=
  (tick_ignores_enabled_flag
      { Components_GameThread := [1], ComponentProxies_RenderThread := [] }
      (fun c => { valid := true, EnabledInCustomPass := true, publishedProxy := [c] })
      (fun c => { valid := true, EnabledInCustomPass := false, publishedProxy := [c] })
      (fun c => { valid := true, EnabledInCustomPass := true, publishedProxy := [c] })
      (fun c => { valid := true, EnabledInCustomPass := false, publishedProxy := [c] })
      (fun _ => rfl) (fun _ => rfl)).1


/-! ## Claim C4: polarity conflicts are rejected; lists stay single-polarity -/

/-- All elements currently held were added under the list's current mode. -/
def TaggedInv {T : Type} (g : TaggedFilterList T) : Prop :=
  ∀ p ∈ g.elements, some p.2 = g.isWhitelist

theorem map_fst_filter_bne {T : Type} (cmp : T → T → Bool) (t : T) (l : List (T × Bool)) :
    (l.filter (fun p => !(cmp t p.1))).map Prod.fst =
      (l.map Prod.fst).filter (fun x => !(cmp t x)) := by
  induction l with
  | nil => rfl
  | cons p rest ih =>
    by_cases hq : cmp t p.1 = true
    · simp [List.filter_cons, hq, ih]
    · simp [List.filter_cons, hq, ih]

theorem applyTaggedOp_erase {T : Type} (cmp : T → T → Bool) (g : TaggedFilterList T)
    (op : FilterOp T) :
    applyFilterOp cmp g.erase op = (applyTaggedOp cmp g op).map TaggedFilterList.erase := by
  cases op with
  | add t asW =>
    rcases hw : g.isWhitelist with _ | b
    · cases asW <;>
        simp [applyFilterOp, applyTaggedOp, updateFilter, FilterList.AddWhitelisted,
              FilterList.AddBlacklisted, TaggedFilterList.erase, hw]
    · cases b <;> cases asW <;>
        simp [applyFilterOp, applyTaggedOp, updateFilter, FilterList.AddWhitelisted,
              FilterList.AddBlacklisted, TaggedFilterList.erase, hw]
  | remove t =>
    simp [applyFilterOp, applyTaggedOp, updateFilter, FilterList.RemoveMatching,
          TaggedFilterList.erase, map_fst_filter_bne]
  | clear => rfl

theorem taggedInv_empty_of_none {T : Type} {g : TaggedFilterList T}
    (hInv : TaggedInv g) (hw : g.isWhitelist = none) : g.elements = [] := by
  cases he : g.elements with
  | nil => rfl
  | cons p rest =>
    have hp := hInv p (by rw [he]; exact List.mem_cons_self p rest)
    rw [hw] at hp
    exact Option.noConfusion hp

theorem taggedInv_step {T : Type} (cmp : T → T → Bool) {g g' : TaggedFilterList T}
    (op : FilterOp T) (hInv : TaggedInv g) (h : applyTaggedOp cmp g op = some g') :
    TaggedInv g' := by
  cases op with
  | add t asW =>
    rcases hw : g.isWhitelist with _ | b
    · have hempty := taggedInv_empty_of_none hInv hw
      cases asW <;>
      · simp [applyTaggedOp, hw, hempty] at h
        cases h
        intro p hp
        simp only [List.mem_singleton] at hp
        simp [hp]
    · cases b <;> cases asW
      · simp [applyTaggedOp, hw] at h
        cases h
        intro p hp
        rcases List.mem_append.mp hp with hp | hp
        · exact (hInv p hp).trans hw
        · simp [List.mem_singleton.mp hp]
      · simp [applyTaggedOp, hw] at h
        cases h
        exact hInv
      · simp [applyTaggedOp, hw] at h
        cases h
        exact hInv
      · simp [applyTaggedOp, hw] at h
        cases h
        intro p hp
        rcases List.mem_append.mp hp with hp | hp
        · exact (hInv p hp).trans hw
        · simp [List.mem_singleton.mp hp]
  | remove t =>
    simp only [applyTaggedOp, Option.some.injEq] at h
    cases h
    intro p hp
    exact hInv p (List.mem_of_mem_filter hp)
  | clear =>
    simp only [applyTaggedOp, Option.some.injEq] at h
    cases h
    intro p hp
    exact absurd hp (List.not_mem_nil p)

theorem applyTaggedOps_erase {T : Type} (cmp : T → T → Bool) (ops : List (FilterOp T)) :
    ∀ g : TaggedFilterList T,
      applyFilterOps cmp g.erase ops = (applyTaggedOps cmp g ops).map TaggedFilterList.erase := by
  induction ops with
  | nil => intro g; rfl
  | cons op ops ih =>
    intro g
    have hstep := applyTaggedOp_erase cmp g op
    cases hmid : applyTaggedOp cmp g op with
    | none =>
      rw [hmid] at hstep
      simp only [applyFilterOps, applyTaggedOps, hmid, hstep]
      rfl
    | some g' =>
      rw [hmid] at hstep
      simp only [applyFilterOps, applyTaggedOps, hmid, hstep, Option.map_some]
      exact ih g'

theorem taggedInv_ops {T : Type} (cmp : T → T → Bool) (ops : List (FilterOp T)) :
    ∀ g g' : TaggedFilterList T, TaggedInv g →
      applyTaggedOps cmp g ops = some g' → TaggedInv g' := by
  induction ops with
  | nil =>
    intro g g' hInv h
    simp only [applyTaggedOps, Option.some.injEq] at h
    exact h ▸ hInv
  | cons op ops ih =>
    intro g g' hInv h
    cases hmid : applyTaggedOp cmp g op with
    | none =>
      simp only [applyTaggedOps, hmid] at h
      exact Option.noConfusion h
    | some gmid =>
      simp only [applyTaggedOps, hmid] at h
      exact ih gmid g' (taggedInv_step cmp op hInv hmid) h

/-- Claim C4: (1) adding an element whose polarity conflicts with an
already-polarized list is rejected: a no-op leaving elements and mode
unchanged; (2) the mutation entry point never trips a fatal assertion
(it always returns); (3) along any successful sequence of add/remove/clear
mutations from a fresh list the ghost-tagged evolution tracks the real
`FilterList` exactly, and all held elements carry the same add-time
polarity — the list never holds both whitelisted and blacklisted
elements. -/
theorem filter_polarity_invariant (T : Type) (cmp : T → T → Bool) :
    (∀ (f : FilterList T) (t : T) (asW : Bool),
        f.isWhitelist.isSome = true → f.isWhitelist ≠ some asW →
        updateFilter cmp t true asW f = some f) ∧
    (∀ (f : FilterList T) (t : T) (isAdding asW : Bool),
        (updateFilter cmp t isAdding asW f).isSome = true) ∧
    (∀ (ops : List (FilterOp T)) (g : TaggedFilterList T),
        applyTaggedOps cmp (TaggedFilterList.mkEmpty T) ops = some g →
        applyFilterOps cmp (FilterList.mkEmpty T) ops = some g.erase ∧
        ∀ p ∈ g.elements, ∀ q ∈ g.elements, p.2 = q.2) := by
  refine ⟨?_, ?_, ?_⟩
  · intro f t asW hset hne
    rcases hw : f.isWhitelist with _ | b
    · rw [hw] at hset; simp at hset
    · rw [hw] at hne
      have hb : (some b != some asW) = true := by
        cases b <;> cases asW <;> simp_all
      simp [updateFilter, hw, hb]
  · intro f t isAdding asW
    cases isAdding with
    | false => simp [updateFilter]
    | true =>
      rcases hw : f.isWhitelist with _ | b
      · cases asW <;>
          simp [updateFilter, FilterList.AddWhitelisted, FilterList.AddBlacklisted, hw]
      · cases b <;> cases asW <;>
          simp [updateFilter, FilterList.AddWhitelisted, FilterList.AddBlacklisted, hw]
  · intro ops g h
    have herase := applyTaggedOps_erase cmp ops (TaggedFilterList.mkEmpty T)
    rw [h] at herase
    have hInv : TaggedInv g :=
      taggedInv_ops cmp ops (TaggedFilterList.mkEmpty T) g
        (fun p hp => absurd hp (List.not_mem_nil p)) h
    refine ⟨by simpa [TaggedFilterList.erase, FilterList.mkEmpty] using herase, ?_⟩
    intro p hp q hq
    exact Option.some.inj ((hInv p hp).trans (hInv q hq).symm)

/-- Closed witness for C4: adding a blacklisted element to the whitelist
`{3}` is rejected without change, and the entry point also returns (does not
assert) on that call. -/
theorem filter_polarity_invariant_witness :
    updateFilter natEq 5 true false { isWhitelist := some true, elements := [3] } =
      some { isWhitelist := some true, elements := [3] } ∧
    (updateFilter natEq 5 true false { isWhitelist := some true, elements := [3] }).isSome =
      true :=
  ⟨(filter_polarity_invariant Nat natEq).1 { isWhitelist := some true, elements := [3] } 5 false
      rfl (by decide),
   (filter_polarity_invariant Nat natEq).2.1 { isWhitelist := some true, elements := [3] } 5
      true false⟩

/-! ## Claim C1: subsystem `BeginDestroy` -/

theorem destroyPass_internal_dying_noop (s : Subsystem) (ty : Nat)
    (hdying : s.isCurrentlyDying = true) :
    ∃ b, s.DestroyPass_Impl_GameThread ty false = some (s, b) := by
  unfold Subsystem.DestroyPass_Impl_GameThread
  cases hf : findEntry ty s.passes with
  | none => exact ⟨false, rfl⟩
  | some pass =>
    rw [hdying]
    exact ⟨true, by simp⟩

theorem beginDestroy_foldl_frozen (l : List (Nat × Nat)) :
    ∀ acc : Subsystem, acc.isCurrentlyDying = true →
      l.foldl
        (fun acc kv =>
          match acc.DestroyPass_Impl_GameThread kv.1 false with
          | some (s', _) => s'
          | none => acc)
        acc = acc := by
  induction l with
  | nil => intro acc _; rfl
  | cons kv rest ih =>
    intro acc h
    rw [List.foldl_cons]
    obtain ⟨b, hb⟩ := destroyPass_internal_dying_noop acc kv.1 h
    rw [hb]
    exact ih acc h

/-- Claim C1 (refuted by the code; see `RESULTS`): `BeginDestroy` empties the
pass map and flips the teardown flag, but — because its per-pass calls are
internal calls which the mid-teardown branch of
`DestroyPass_Impl_GameThread` returns from early — it enqueues **no**
submission-thread cleanup command and starts **no** completion fence for any
remaining pass; on a subsystem with no prior pending fences
`IsReadyForFinishDestroy` is therefore immediately true. -/
theorem beginDestroy_skips_fenced_cleanup (s : Subsystem) :
    s.BeginDestroy.passes = [] ∧
    s.BeginDestroy.isCurrentlyDying = true ∧
    s.BeginDestroy.dyingPassFences = s.dyingPassFences ∧
    s.BeginDestroy.renderQueue = s.renderQueue ∧
    (Subsystem.BeginDestroy
        { passes := [(0, 100)], dyingPassFences := [], isCurrentlyDying := false,
          renderQueue := [], nextPassId := 1 }).IsReadyForFinishDestroy = true := by
  have hfold := beginDestroy_foldl_frozen s.passes { s with isCurrentlyDying := true } rfl
  simp only [Subsystem.BeginDestroy]
  rw [hfold]
  refine ⟨?_, ?_, ?_, ?_, ?_⟩ <;> first | rfl | trivial

/-! ## Claim C3: externally-initiated fenced pass destruction -/

theorem findEntry_filter_ne {α : Type} (ty : Nat) (l : List (Nat × α)) :
    findEntry ty (l.filter (fun kv => kv.1 ≠ ty)) = none := by
  induction l with
  | nil => rfl
  | cons kv rest ih =>
    simp only [List.filter_cons]
    by_cases h : kv.1 = ty
    · rw [if_neg (by simp [h])]
      exact ih
    · rw [if_pos (by simp [h])]
      simp only [findEntry]
      rw [if_neg h]
      exact ih

/-- Claim C3: during normal operation, an external `DestroyPass_GameThread`
immediately removes the pass from the map (so `GetPass(type, false)` finds
nothing), enqueues the pass's submission-thread cleanup, starts a completion
fence (present, started, not yet complete), and the subsystem is not ready
to finish destroying while that fence — or any other pending fence — is
incomplete, becoming ready exactly when every pending fence is complete. -/
theorem destroyPass_external_fenced (s : Subsystem) (ty pass : Nat)
    (hdying : s.isCurrentlyDying = false)
    (hfound : findEntry ty s.passes = some pass) :
    ∀ s' b, s.DestroyPass_GameThread ty = some (s', b) →
      b = true ∧
      (s'.GetPass ty false).1 = none ∧
      s'.renderQueue = s.renderQueue ++ [RenderCmd.cleanupPass pass true] ∧
      (pass, { started := true, complete := false }) ∈ s'.dyingPassFences ∧
      s'.IsReadyForFinishDestroy = false ∧
      s'.withAllFencesComplete.IsReadyForFinishDestroy = true ∧
      (∀ t : Subsystem,
        ((∃ kv ∈ t.dyingPassFences, kv.2.complete = false) →
            t.IsReadyForFinishDestroy = false) ∧
        ((∀ kv ∈ t.dyingPassFences, kv.2.complete = true) →
            t.IsReadyForFinishDestroy = true)) := by
  intro s' b h
  have heq : s.DestroyPass_GameThread ty =
      some (Subsystem.fencedCleanup
        { s with passes := s.passes.filter (fun kv => kv.1 ≠ ty) } pass true, true) := by
    unfold Subsystem.DestroyPass_GameThread Subsystem.DestroyPass_Impl_GameThread
    rw [hfound]
    simp [hdying]
  rw [heq] at h
  have hpq := Option.some.inj h
  have hs' : s' = Subsystem.fencedCleanup
      { s with passes := s.passes.filter (fun kv => kv.1 ≠ ty) } pass true :=
    (congrArg Prod.fst hpq).symm
  have hb : b = true := (congrArg Prod.snd hpq).symm
  subst hs'
  subst hb
  refine ⟨rfl, ?_, rfl, ?_, ?_, ?_, ?_⟩
  · unfold Subsystem.GetPass
    rw [show findEntry ty (Subsystem.fencedCleanup
          { s with passes := s.passes.filter (fun kv => kv.1 ≠ ty) } pass true).passes = none
        from findEntry_filter_ne ty s.passes]
    rfl
  · simp [Subsystem.fencedCleanup]
  · simp [Subsystem.fencedCleanup, Subsystem.IsReadyForFinishDestroy]
  · simp [Subsystem.fencedCleanup, Subsystem.withAllFencesComplete,
          Subsystem.IsReadyForFinishDestroy]
  · intro t
    constructor
    · rintro ⟨kv, hmem, hc⟩
      unfold Subsystem.IsReadyForFinishDestroy
      cases hall : t.dyingPassFences.all (fun kvp => kvp.2.complete) with
      | false => rfl
      | true =>
        have := List.all_eq_true.mp hall kv hmem
        rw [hc] at this
        exact Bool.noConfusion this
    · intro hall
      unfold Subsystem.IsReadyForFinishDestroy
      exact List.all_eq_true.mpr hall

/-- Closed witness for C3 on a one-pass subsystem. -/
theorem destroyPass_external_fenced_witness :
    (Subsystem.GetPass
        { passes := [], dyingPassFences := [(100, { started := true, complete := false })],
          isCurrentlyDying := false, renderQueue := [RenderCmd.cleanupPass 100 true],
          nextPassId := 0 } 3 false).1 = none ∧
    (Subsystem.IsReadyForFinishDestroy
        { passes := [], dyingPassFences := [(100, { started := true, complete := false })],
          isCurrentlyDying := false, renderQueue := [RenderCmd.cleanupPass 100 true],
          nextPassId := 0 }) = false := by
  have h := destroyPass_external_fenced
    { passes := [(3, 100)], dyingPassFences := [], isCurrentlyDying := false,
      renderQueue := [], nextPassId := 0 } 3 100 rfl rfl
    { passes := [], dyingPassFences := [(100, { started := true, complete := false })],
      isCurrentlyDying := false, renderQueue := [RenderCmd.cleanupPass 100 true],
      nextPassId := 0 } true (by decide)
  exact ⟨h.2.1, h.2.2.2.2.1⟩

/-! ## Claims C2 and C8: the per-view cache -/

theorem entryKeys_tickMap_sublist {TData : Type} (th : Int) (prot : List Int)
    (l : List (Int × ViewData TData)) :
    (entryKeys (tickMap th prot l)).Sublist (entryKeys l) := by
  induction l with
  | nil => exact List.Sublist.refl _
  | cons kv rest ih =>
    obtain ⟨k, d⟩ := kv
    simp only [tickMap]
    cases tickEntry th prot k d with
    | none => exact ih.cons k
    | some d' => exact ih.cons₂ k

theorem findEntry_tickMap {TData : Type} (th : Int) (prot : List Int) (k : Int) :
    ∀ l : List (Int × ViewData TData), (entryKeys l).Nodup →
      findEntry k (tickMap th prot l) =
        (findEntry k l).bind (fun d => tickEntry th prot k d) := by
  intro l
  induction l with
  | nil => intro _; rfl
  | cons kv rest ih =>
    intro hnd
    obtain ⟨k', d⟩ := kv
    simp only [entryKeys, List.map_cons, List.nodup_cons] at hnd
    obtain ⟨hknotin, hndrest⟩ := hnd
    have hrest := ih (by simpa [entryKeys] using hndrest)
    simp only [tickMap]
    cases hte : tickEntry th prot k' d with
    | none =>
      by_cases hk : k' = k
      · subst hk
        have hnone : findEntry k' (tickMap th prot rest) = none :=
          findEntry_eq_none_of_not_mem
            (fun hmem => hknotin ((entryKeys_tickMap_sublist th prot rest).subset hmem))
        rw [hnone]
        simp [findEntry, hte]
      · have hskip : findEntry k ((k', d) :: rest) = findEntry k rest := by
          simp [findEntry, hk]
        rw [hskip, hrest]
    | some d' =>
      by_cases hk : k' = k
      · subst hk
        simp [findEntry, hte]
      · simp only [findEntry]
        rw [if_neg hk, if_neg hk]
        exact hrest

theorem tick_iterate_fields {TData : Type} (s : PerViewState TData) (n : Nat) :
    ((PerViewState.Tick)^[n] s).CleanupFrameThreshold = s.CleanupFrameThreshold ∧
    ((PerViewState.Tick)^[n] s).CleanupPreventionByViewID = s.CleanupPreventionByViewID := by
  induction n with
  | zero => exact ⟨rfl, rfl⟩
  | succ n ih =>
    rw [Function.iterate_succ_apply']
    exact ih

theorem tick_iterate_nodup {TData : Type} (s : PerViewState TData)
    (hnd : (entryKeys s.dataByViewID).Nodup) (n : Nat) :
    (entryKeys ((PerViewState.Tick)^[n] s).dataByViewID).Nodup := by
  induction n with
  | zero => exact hnd
  | succ n ih =>
    rw [Function.iterate_succ_apply']
    exact ih.sublist (entryKeys_tickMap_sublist _ _ _)

theorem nodup_upsert {κ α : Type} [DecidableEq κ] (k : κ) (v : α) (l : List (κ × α))
    (hnd : (entryKeys l).Nodup) : (entryKeys (upsertEntry k v l)).Nodup := by
  rw [entryKeys_upsert]
  split
  · exact hnd
  · next h => simp [List.nodup_append, hnd, h]

/-- After any `DataForView`, the accessed view's entry exists with
`FramesSinceAccess = 0`, and the other configuration fields are untouched. -/
theorem dataForView_entry {TData : Type}
    (resample : TData → IntPoint → IntPoint → IntPoint → TData) (construct : TData)
    (t : PerViewState TData) (view : ViewInfo) :
    ∃ dd, findEntry view.viewKey ((t.DataForView resample construct view).1).dataByViewID =
        some dd ∧ dd.FramesSinceAccess = 0 := by
  cases hfind : findEntry view.viewKey t.dataByViewID with
  | none =>
    simp only [PerViewState.DataForView, hfind]
    rw [findEntry_upsert_self]
    refine ⟨_, rfl, ?_⟩
    split <;> rfl
  | some d =>
    simp only [PerViewState.DataForView, hfind]
    rw [findEntry_upsert_self]
    refine ⟨_, rfl, ?_⟩
    split <;> rfl

theorem tick_iterate_unprotected {TData : Type} (s : PerViewState TData) (k : Int)
    (d : ViewData TData) (m : Nat)
    (hth : s.CleanupFrameThreshold = (m : Int))
    (hnd : (entryKeys s.dataByViewID).Nodup)
    (hprot : k ∉ s.CleanupPreventionByViewID)
    (hfound : findEntry k s.dataByViewID = some d)
    (hfsa : d.FramesSinceAccess = 0) :
    (∀ n : Nat, n ≤ m + 1 →
       findEntry k ((PerViewState.Tick)^[n] s).dataByViewID =
         some { d with FramesSinceAccess := (n : Int) }) ∧
    findEntry k ((PerViewState.Tick)^[m + 2] s).dataByViewID = none := by
  obtain ⟨u, ps, fl, fsa⟩ := d
  simp only at hfsa
  subst hfsa
  have step : ∀ n : Nat, n ≤ m + 1 →
      findEntry k ((PerViewState.Tick)^[n] s).dataByViewID =
        some { User := u, PixelSubset := ps, FeatureLevel := fl,
               FramesSinceAccess := (n : Int) } := by
    intro n
    induction n with
    | zero =>
      intro _
      simpa using hfound
    | succ n ih =>
      intro hle
      have hn : n ≤ m + 1 := Nat.le_of_succ_le hle
      have hprev := ih hn
      rw [Function.iterate_succ_apply', PerViewState.Tick,
          findEntry_tickMap _ _ _ _ (tick_iterate_nodup s hnd n), hprev]
      have hfields := tick_iterate_fields s n
      rw [hfields.1, hfields.2, hth]
      simp only [Option.some_bind, tickEntry]
      rw [if_neg hprot, if_neg (show ¬((m : Int) < (n : Int)) from by omega)]
      push_cast
      rfl
  refine ⟨step, ?_⟩
  have hprev := step (m + 1) (Nat.le_refl _)
  rw [Function.iterate_succ_apply', PerViewState.Tick,
      findEntry_tickMap _ _ _ _ (tick_iterate_nodup s hnd (m + 1)), hprev]
  have hfields := tick_iterate_fields s (m + 1)
  rw [hfields.1, hfields.2, hth]
  simp only [Option.some_bind, tickEntry]
  rw [if_neg hprot, if_pos (show (m : Int) < ((m + 1 : Nat) : Int) from by push_cast; omega)]

theorem tick_iterate_protected {TData : Type} (s : PerViewState TData) (k : Int)
    (hnd : (entryKeys s.dataByViewID).Nodup)
    (hprot : k ∈ s.CleanupPreventionByViewID) :
    ∀ n : Nat, findEntry k ((PerViewState.Tick)^[n] s).dataByViewID =
      findEntry k s.dataByViewID := by
  intro n
  induction n with
  | zero => rfl
  | succ n ih =>
    rw [Function.iterate_succ_apply', PerViewState.Tick,
        findEntry_tickMap _ _ _ _ (tick_iterate_nodup s hnd n), ih]
    have hfields := tick_iterate_fields s n
    rw [hfields.2]
    cases findEntry k s.dataByViewID with
    | none => rfl
    | some d => simp [tickEntry, hprot]

theorem accessEveryTick_presence {TData : Type}
    (resample : TData → IntPoint → IntPoint → IntPoint → TData) (construct : TData)
    (view : ViewInfo) (s : PerViewState TData) (m : Nat)
    (hth : s.CleanupFrameThreshold = (m : Int))
    (hnd : (entryKeys s.dataByViewID).Nodup)
    (hfound : (findEntry view.viewKey s.dataByViewID).isSome = true) :
    ∀ n : Nat,
      (findEntry view.viewKey
        (((fun t => (PerViewState.DataForView resample construct t view).1.Tick)^[n]) s).dataByViewID).isSome
        = true := by
  have key : ∀ n : Nat,
      (((fun t => (PerViewState.DataForView resample construct t view).1.Tick)^[n]) s).CleanupFrameThreshold
          = (m : Int) ∧
      (entryKeys (((fun t => (PerViewState.DataForView resample construct t view).1.Tick)^[n]) s).dataByViewID).Nodup ∧
      (findEntry view.viewKey
        (((fun t => (PerViewState.DataForView resample construct t view).1.Tick)^[n]) s).dataByViewID).isSome
        = true := by
    intro n
    induction n with
    | zero => exact ⟨hth, hnd, hfound⟩
    | succ n ih =>
      obtain ⟨ihth, ihnd, ihsome⟩ := ih
      rw [Function.iterate_succ_apply']
      set t := ((fun t => (PerViewState.DataForView resample construct t view).1.Tick)^[n]) s
        with ht
      obtain ⟨dd, hdd, hddfsa⟩ := dataForView_entry resample construct t view
      have haccnd : (entryKeys ((t.DataForView resample construct view).1).dataByViewID).Nodup := by
        simp only [PerViewState.DataForView]
        exact nodup_upsert _ _ _ ihnd
      have haccth : ((t.DataForView resample construct view).1).CleanupFrameThreshold
          = (m : Int) := ihth
      have haccprot : ((t.DataForView resample construct view).1).CleanupPreventionByViewID
          = t.CleanupPreventionByViewID := rfl
      refine ⟨haccth, (haccnd.sublist (entryKeys_tickMap_sublist _ _ _) : _), ?_⟩
      rw [PerViewState.Tick, findEntry_tickMap _ _ _ _ haccnd, hdd]
      simp only [Option.some_bind, tickEntry]
      by_cases hp : view.viewKey ∈ ((t.DataForView resample construct view).1).CleanupPreventionByViewID
      · rw [if_pos hp]; rfl
      · rw [if_neg hp, if_neg (by rw [haccth, hddfsa]; exact not_lt.mpr (Int.natCast_nonneg m))]
        rfl
  intro n
  exact (key n).2.2

/-- Amended claim C2: with a non-negative threshold `m` and duplicate-free
keys, an unprotected, never-accessed entry (idle count 0) is still present
with idle count `n` after every `n ≤ m + 1` ticks and is absent after
exactly `m + 2` ticks; an entry accessed via `DataForView` between every
pair of ticks is never evicted; an entry whose ID is in
`CleanupPreventionByViewID` is never touched by any number of ticks. -/
theorem perViewData_eviction (TData : Type) (s : PerViewState TData) (k : Int) (m : Nat)
    (hth : s.CleanupFrameThreshold = (m : Int))
    (hnd : (entryKeys s.dataByViewID).Nodup) :
    (∀ d : ViewData TData,
       findEntry k s.dataByViewID = some d →
       d.FramesSinceAccess = 0 →
       k ∉ s.CleanupPreventionByViewID →
       (∀ n : Nat, n ≤ m + 1 →
          findEntry k ((PerViewState.Tick)^[n] s).dataByViewID =
            some { d with FramesSinceAccess := (n : Int) }) ∧
       findEntry k ((PerViewState.Tick)^[m + 2] s).dataByViewID = none) ∧
    (∀ (resample : TData → IntPoint → IntPoint → IntPoint → TData) (construct : TData)
       (view : ViewInfo), view.viewKey = k →
       (findEntry k s.dataByViewID).isSome = true →
       ∀ n : Nat,
         (findEntry k
           (((fun t => (PerViewState.DataForView resample construct t view).1.Tick)^[n]) s).dataByViewID).isSome
           = true) ∧
    (k ∈ s.CleanupPreventionByViewID →
       ∀ n : Nat, findEntry k ((PerViewState.Tick)^[n] s).dataByViewID =
         findEntry k s.dataByViewID) := by
  refine ⟨?_, ?_, ?_⟩
  · intro d hfound hfsa hprot
    exact tick_iterate_unprotected s k d m hth hnd hprot hfound hfsa
  · intro resample construct view hkey hfound
    rw [← hkey] at hfound ⊢
    exact accessEveryTick_presence resample construct view s m hth hnd hfound
  · intro hprot
    exact tick_iterate_protected s k hnd hprot

def rectZero : IntRect := { Min := ⟨0, 0⟩, Max := ⟨0, 0⟩ }

def viewDataEx : ViewData Unit :=
  { User := (), PixelSubset := rectZero, FeatureLevel := 0, FramesSinceAccess := 0 }

/-- A cache with threshold 0 holding one unprotected, fresh entry for view 7. -/
def perViewEx : PerViewState Unit :=
  { CleanupFrameThreshold := 0, CleanupPreventionByViewID := [],
    dataByViewID := [(7, viewDataEx)] }

/-- Counterexample to C2 as stated: with `CleanupFrameThreshold = 0`, the
never-accessed, unprotected entry is still present after
`CleanupFrameThreshold + 1 = 1` tick (the claim says it is absent then);
it only becomes absent after 2 ticks. -/
theorem perViewData_eviction_offByOne :
    findEntry 7 (PerViewState.Tick perViewEx).dataByViewID =
      some { viewDataEx with FramesSinceAccess := 1 } ∧
    findEntry 7 (PerViewState.Tick perViewEx).dataByViewID ≠ none ∧
    findEntry 7 ((PerViewState.Tick)^[2] perViewEx).dataByViewID = none := by
  refine ⟨by decide, ?_, by decide⟩
  intro h
  rw [show findEntry 7 (PerViewState.Tick perViewEx).dataByViewID =
      some { viewDataEx with FramesSinceAccess := 1 } from by decide] at h
  exact Option.noConfusion h

/-- Closed witness for the amended C2 on the threshold-0 cache: present
after 1 tick, absent after 2. -/
theorem perViewData_eviction_witness :
    findEntry 7 ((PerViewState.Tick)^[1] perViewEx).dataByViewID =
      some { viewDataEx with FramesSinceAccess := ((1 : Nat) : Int) } ∧
    findEntry 7 ((PerViewState.Tick)^[2] perViewEx).dataByViewID = none := by
  have h := (perViewData_eviction Unit perViewEx 7 0 rfl (by decide)).1 viewDataEx rfl rfl
    (by decide)
  exact ⟨h.1 1 (by decide), h.2⟩

/-- The instrumentation for C8: the user data records every `Resample`
invocation as a `(oldResolution, newResolution, oldToNewPixelOffset)`
triple. -/
def recResample (d : List (IntPoint × IntPoint × IntPoint)) (o n off : IntPoint) :
    List (IntPoint × IntPoint × IntPoint) := d ++ [(o, n, off)]

/-- Claim C8: a `DataForView` call on an existing entry whose view rectangle
differs from the cached `pixelSubset` invokes `Resample` exactly once —
recording exactly one `(old size, new size, old-to-new offset)` triple —
and updates the cached `pixelSubset` to the view's rectangle (and resets the
idle counter); a call whose rectangle equals the cached one invokes
`Resample` zero times. -/
theorem dataForView_resample_once
    (s : PerViewState (List (IntPoint × IntPoint × IntPoint)))
    (construct : List (IntPoint × IntPoint × IntPoint)) (view : ViewInfo)
    (d : ViewData (List (IntPoint × IntPoint × IntPoint)))
    (hfound : findEntry view.viewKey s.dataByViewID = some d) :
    (d.PixelSubset ≠ view.ViewRect →
       (s.DataForView recResample construct view).2 =
         d.User ++ [(d.PixelSubset.size, view.ViewRect.size,
                     view.ViewRect.Min.sub d.PixelSubset.Min)] ∧
       findEntry view.viewKey (s.DataForView recResample construct view).1.dataByViewID =
         some { User := d.User ++ [(d.PixelSubset.size, view.ViewRect.size,
                                    view.ViewRect.Min.sub d.PixelSubset.Min)],
                PixelSubset := view.ViewRect,
                FeatureLevel := d.FeatureLevel,
                FramesSinceAccess := 0 }) ∧
    (d.PixelSubset = view.ViewRect →
       (s.DataForView recResample construct view).2 = d.User ∧
       findEntry view.viewKey (s.DataForView recResample construct view).1.dataByViewID =
         some { d with FramesSinceAccess := 0 }) := by
  constructor
  · intro hne
    constructor
    · simp [PerViewState.DataForView, hfound, hne, recResample]
    · simp [PerViewState.DataForView, hfound, hne, recResample, findEntry_upsert_self]
  · intro heq
    constructor
    · simp [PerViewState.DataForView, hfound, heq]
    · simp [PerViewState.DataForView, hfound, heq, findEntry_upsert_self]

def rectOne : IntRect := { Min := ⟨1, 2⟩, Max := ⟨5, 7⟩ }

def c8View : ViewInfo :=
  { viewKey := 7, ViewRect := rectOne, FeatureLevel := 3,
    PrimitiveVisibilityMap := [], PrimitiveViewRelevanceMap := [],
    DynamicMeshElementRanges := [] }

def c8Entry : ViewData (List (IntPoint × IntPoint × IntPoint)) :=
  { User := [], PixelSubset := rectZero, FeatureLevel := 3, FramesSinceAccess := 5 }

def c8State : PerViewState (List (IntPoint × IntPoint × IntPoint)) :=
  { CleanupFrameThreshold := 60, CleanupPreventionByViewID := [],
    dataByViewID := [(7, c8Entry)] }

/-- Closed witness for C8: accessing view 7 with a changed rectangle records
exactly one resample triple. -/
theorem dataForView_resample_once_witness :
    (c8State.DataForView recResample [] c8View).2 =
      c8Entry.User ++ [(c8Entry.PixelSubset.size, c8View.ViewRect.size,
                        c8View.ViewRect.Min.sub c8Entry.PixelSubset.Min)] :=
  ((dataForView_resample_once c8State [] c8View c8Entry rfl).1 (by decide)).1
